import Mathlib

/-!
Shallow embedding of the selection-reconciliation and drag/drop layer of the
appcues draft-js fork, covering `src/component/selection/setDraftEditorSelection.js`
and `lib/DraftEditorDragHandler.js.flow`, together with the host (DOM)
selection primitives those modules call.

Host selection semantics follow the DOM behaviour the source relies on:
`range.setStart`, `selection.extend` and `range.setEnd` raise an
`IndexSizeError` when the given offset exceeds the node length,
`selection.extend` and `selection.getRangeAt(0)` raise an
`InvalidStateError` when the selection holds no range, and reading a
property of a null object raises a `TypeError`.
-/

set_option autoImplicit false

/-- A rendered host (DOM) node. `pos` is its document-order position (used to
order boundary points in `range.setEnd`), `length` collapses the source
function `getNodeLength` (text length when `nodeValue` is non-null, child
count otherwise), and `ancestorOffsetKey` records the offset key carried by
the nearest tagged ancestor, when one exists (consumed by
`findAncestorOffsetKey`). -/
structure HostNode where
  id : Nat
  pos : Nat
  length : Nat
  ancestorOffsetKey : Option String := none
deriving DecidableEq, Repr

/-- A host boundary point: a node together with an offset inside it. -/
abbrev HostPoint := HostNode × Nat

/-- The logical `SelectionState` value: block key and character offset for
each endpoint, plus the direction flag. -/
structure SelectionState where
  anchorKey : String
  anchorOffset : Nat
  focusKey : String
  focusOffset : Nat
  isBackward : Bool
deriving DecidableEq, Repr

/-- The host selection object: whether it exposes the `extend` capability,
and its current range as an (anchor, focus) pair of boundary points
(`none` when `rangeCount` is zero). `addRange` installs a forward
(anchor = range start, focus = range end) pair. -/
structure HostSelection where
  hasExtend : Bool
  sel : Option (HostPoint × HostPoint)
deriving DecidableEq, Repr

/-- Ambient host facts read by the synchronizer:
`editorRootContains n` models `containsNode(window.editorShadowRoot, n)` and
`activeContains n` models `containsNode(getActiveElement(), n)`. -/
structure Env where
  editorRootContains : HostNode → Bool
  activeContains : HostNode → Bool

/-- Host (JavaScript) exceptions the embedded code can raise. -/
inductive JsErr
  | indexSize
  | invalidState
  | typeError
  | nullthrown
deriving DecidableEq, Repr

/-- Host selection / range API calls issued by the synchronizer, recorded as
a trace. `setStart n off` stands for `document.createRange()` followed by
`range.setStart(n, off)`. -/
inductive HostCall
  | removeAllRanges
  | setStart (n : HostNode) (off : Nat)
  | addRange (anchor focus : HostPoint)
  | extend (n : HostNode) (off : Nat)
  | getRangeAt (i : Nat)
  | setEnd (n : HostNode) (off : Nat)
deriving DecidableEq, Repr

/-- One `DraftJsDebugLogging.logSelectionStateFailure` diagnostic record:
the node whose anonymized DOM is captured, the offending offset, and the
logical selection being applied. -/
structure Diag where
  node : HostNode
  offset : Nat
  selState : SelectionState
deriving DecidableEq, Repr

/-- Result of a synchronizer step: the host calls attempted, the diagnostics
logged, and either the updated host selection or the escaping host
exception. -/
abbrev SelOut := List HostCall × List Diag × Except JsErr HostSelection

instance : DecidableEq (Except JsErr HostSelection) := fun a b =>
  match a, b with
  | Except.error e, Except.error f =>
    if h : e = f then isTrue (by rw [h]) else isFalse (by intro hc; cases hc; exact h rfl)
  | Except.ok s, Except.ok t =>
    if h : s = t then isTrue (by rw [h]) else isFalse (by intro hc; cases hc; exact h rfl)
  | Except.error _, Except.ok _ => isFalse (by intro hc; cases hc)
  | Except.ok _, Except.error _ => isFalse (by intro hc; cases hc)

/-- Source function `getNodeLength`. -/
def getNodeLength (n : HostNode) : Nat := n.length

/-- The anchor/focus swap performed for backward selections on hosts whose
selection object lacks `extend` (source lines 109-117): the key/offset pairs
are exchanged and the local direction flag becomes forward. -/
def swapSelection (st : SelectionState) : SelectionState :=
  { anchorKey := st.focusKey, anchorOffset := st.focusOffset,
    focusKey := st.anchorKey, focusOffset := st.anchorOffset, isBackward := false }

/-- The local (anchorKey, anchorOffset, focusKey, focusOffset, isBackward)
values of `setDraftEditorSelection` after the possible no-extend backward
swap. -/
def normalizeForHost (selection : HostSelection) (st : SelectionState) : SelectionState :=
  if !selection.hasExtend && st.isBackward then swapSelection st else st

/-- The `hasAnchor` / `hasFocus` test of `setDraftEditorSelection`:
the endpoint key matches this block and the offset lies in
`[nodeStart, nodeEnd]` with inclusive bounds. -/
def nodeHasPoint (blockKey : String) (nodeStart nodeEnd : Nat) (key : String) (off : Nat) : Bool :=
  key == blockKey && decide (nodeStart ≤ off) && decide (off ≤ nodeEnd)

/-- Sequencing of host-selection steps: traces and logs accumulate, and the
first host exception aborts the rest (there is no catch in the source). -/
def thenSel (r : SelOut) (f : HostSelection → SelOut) : SelOut :=
  match r with
  | (t, l, Except.error e) => (t, l, Except.error e)
  | (t, l, Except.ok s) =>
    let r2 := f s
    (t ++ r2.1, l ++ r2.2.1, r2.2.2)

/-- `selection.removeAllRanges()`. -/
def removeAllRangesOp (s : HostSelection) : SelOut :=
  ([HostCall.removeAllRanges], [], Except.ok { s with sel := none })

/-- Source function `addPointToSelection`: create a range, log a diagnostic
when the offset exceeds the node length, call `range.setStart` (which raises
`IndexSizeError` exactly in that over-length case), and add the collapsed
range to the selection. -/
def addPointToSelection (s : HostSelection) (node : HostNode) (offset : Nat)
    (selectionState : SelectionState) : SelOut :=
  let log := if getNodeLength node < offset then [⟨node, offset, selectionState⟩] else []
  if getNodeLength node < offset then
    ([HostCall.setStart node offset], log, Except.error JsErr.indexSize)
  else
    ([HostCall.setStart node offset, HostCall.addRange (node, offset) (node, offset)], log,
      Except.ok { s with sel := some ((node, offset), (node, offset)) })

/-- Document order on host boundary points. -/
def pointLe (p q : HostPoint) : Bool :=
  decide (p.1.pos < q.1.pos) || (decide (p.1.pos = q.1.pos) && decide (p.2 ≤ q.2))

def minPoint (p q : HostPoint) : HostPoint := if pointLe p q then p else q

/-- Effect of `range.setEnd(node, off)` on the first range of a selection
whose (anchor, focus) pair is `(a, f)`: the range runs from the earlier of
the two boundary points, and setting an end before the start collapses the
range to the new end (DOM boundary-point rules). -/
def rangeAfterSetEnd (a f : HostPoint) (node : HostNode) (off : Nat) : HostPoint × HostPoint :=
  let start := minPoint a f
  let bp : HostPoint := (node, off)
  if pointLe start bp then (start, bp) else (bp, bp)

/-- Source function `addFocusToSelection`. When the selection supports
`extend` and the target node sits inside the active element, the focus is
moved with `selection.extend` (logging first when the offset exceeds the
node length, since that call is about to raise). Otherwise the first range
is extracted with `getRangeAt(0)`, its end is set to the target point, and a
clone of it is re-added. -/
def addFocusToSelection (env : Env) (s : HostSelection) (node : HostNode) (offset : Nat)
    (selectionState : SelectionState) : SelOut :=
  if s.hasExtend && env.activeContains node then
    let log := if getNodeLength node < offset then [⟨node, offset, selectionState⟩] else []
    match s.sel with
    | none => ([HostCall.extend node offset], log, Except.error JsErr.invalidState)
    | some (a, _) =>
      if getNodeLength node < offset then
        ([HostCall.extend node offset], log, Except.error JsErr.indexSize)
      else
        ([HostCall.extend node offset], log, Except.ok { s with sel := some (a, (node, offset)) })
  else
    match s.sel with
    | none => ([HostCall.getRangeAt 0], [], Except.error JsErr.invalidState)
    | some (a, f) =>
      if getNodeLength node < offset then
        ([HostCall.getRangeAt 0, HostCall.setEnd node offset], [], Except.error JsErr.indexSize)
      else
        let p := rangeAfterSetEnd a f node offset
        ([HostCall.getRangeAt 0, HostCall.setEnd node offset, HostCall.addRange p.1 p.2], [],
          Except.ok { s with sel := some p })

/-- Source function `setDraftEditorSelection` (the applySelection contract):
bail when the node is detached from the editor root; swap endpoints for
backward selections on no-extend hosts; then, depending on which endpoints
this node contains, clear and set the start point and/or extend to the
focus point. In the backward case, when this node holds the anchor, the
current host focus point is captured before the ranges are cleared and the
selection is extended back to it (a `null` captured focus node makes the
final `range.setEnd` raise a `TypeError`). -/
def setDraftEditorSelection (env : Env) (selectionState : SelectionState) (node : HostNode)
    (blockKey : String) (nodeStart nodeEnd : Nat) (selection : HostSelection) : SelOut :=
  if !env.editorRootContains node then ([], [], Except.ok selection)
  else
    let st := normalizeForHost selection selectionState
    let hasAnchor := nodeHasPoint blockKey nodeStart nodeEnd st.anchorKey st.anchorOffset
    let hasFocus := nodeHasPoint blockKey nodeStart nodeEnd st.focusKey st.focusOffset
    if hasAnchor && hasFocus then
      thenSel (removeAllRangesOp selection) (fun s1 =>
        thenSel (addPointToSelection s1 node (st.anchorOffset - nodeStart) selectionState)
          (fun s2 => addFocusToSelection env s2 node (st.focusOffset - nodeStart) selectionState))
    else if !st.isBackward then
      thenSel
        (if hasAnchor then
          thenSel (removeAllRangesOp selection) (fun s1 =>
            addPointToSelection s1 node (st.anchorOffset - nodeStart) selectionState)
        else ([], [], Except.ok selection))
        (fun s2 =>
          if hasFocus then
            addFocusToSelection env s2 node (st.focusOffset - nodeStart) selectionState
          else ([], [], Except.ok s2))
    else
      thenSel
        (if hasFocus then
          thenSel (removeAllRangesOp selection) (fun s1 =>
            addPointToSelection s1 node (st.focusOffset - nodeStart) selectionState)
        else ([], [], Except.ok selection))
        (fun s2 =>
          if hasAnchor then
            match s2.sel with
            | some pf0 =>
              thenSel (removeAllRangesOp s2) (fun s3 =>
                thenSel (addPointToSelection s3 node (st.anchorOffset - nodeStart) selectionState)
                  (fun s4 => addFocusToSelection env s4 pf0.2.1 pf0.2.2 selectionState))
            | none =>
              thenSel (removeAllRangesOp s2) (fun s3 =>
                thenSel (addPointToSelection s3 node (st.anchorOffset - nodeStart) selectionState)
                  (fun _s4 => ([HostCall.getRangeAt 0], [], Except.error JsErr.typeError)))
          else ([], [], Except.ok s2))

/-!
Drag/drop handling (`DraftEditorDragHandler.js.flow`). The content-mutation
and state-push collaborators (`DraftModifier`, `EditorState`), the offset
resolver pieces (`findAncestorOffsetKey`, `getUpdatedSelectionState`) and
the `isEventHandled` predicate are modules of this repository or of its
collaborators that are not included under `src/`; they are modelled from
the specification, as stated on each definition.
-/

/-- Modelled from the spec: the content model, as the free algebra of the
pure content-mutation API of section 6 (`insertText`, `moveText`); the
`ContentState` module itself is not included under `src/`. Each mutation
returns a new content value recording which single mutation call built it. -/
inductive ContentState
  | base (id : Nat)
  | insertTextC (c : ContentState) (sel : SelectionState) (text : String) (style : List String)
  | moveTextC (c : ContentState) (src tgt : SelectionState)
deriving DecidableEq, Repr

/-- Modelled from the spec: `DraftModifier.insertText(content, selection,
text, inlineStyle)` is a pure function returning a new content value;
`DraftModifier` is not included under `src/`. -/
def DraftModifier.insertText (c : ContentState) (sel : SelectionState) (text : String)
    (style : List String) : ContentState :=
  ContentState.insertTextC c sel text style

/-- Modelled from the spec: `DraftModifier.moveText(content, sourceSelection,
targetSelection)` is a pure function returning a new content value — one
combined mutation, not a delete followed by an insert; `DraftModifier` is
not included under `src/`. -/
def DraftModifier.moveText (c : ContentState) (src tgt : SelectionState) : ContentState :=
  ContentState.moveTextC c src tgt

/-- Modelled from the spec: `EditorState` (sections 3 and 6) — an immutable
snapshot owning a content model, the current selection, the current inline
style set and a change-type tag; `history` records each pushed
(content, change type) pair so that one push is one history step, and
`mappableKeys` lists the offset keys that can be mapped back into the
content model (used by the offset resolver); the `EditorState` module is
not included under `src/`. -/
structure EditorState where
  currentContent : ContentState
  selection : SelectionState
  inlineStyle : List String
  mappableKeys : List String
  lastChangeType : Option String
  history : List (ContentState × String)
deriving DecidableEq, Repr

/-- Modelled from the spec: `EditorState.push(priorState, newContent,
changeType)` returns a new state holding the new content and change type
and recording one history step; the `EditorState` module is not included
under `src/`. -/
def EditorState.push (prior : EditorState) (newContent : ContentState)
    (changeType : String) : EditorState :=
  { prior with
    currentContent := newContent,
    lastChangeType := some changeType,
    history := prior.history ++ [(newContent, changeType)] }

/-- Modelled from the spec: the sentinel an override hook returns to report
the event handled; the `isEventHandled` module is not included under
`src/`. -/
inductive DraftHandleValue
  | handled
  | notHandled
deriving DecidableEq, Repr

/-- Modelled from the spec: the predicate by which the core recognizes that
a hook handled the event; the `isEventHandled` module is not included under
`src/`. -/
def isEventHandled (v : DraftHandleValue) : Bool :=
  v == DraftHandleValue.handled

/-- The data-transfer payload read from the drop event
(`data.getFiles()`, `data.getText()`); files are opaque handles. -/
structure DataTransferM where
  files : List Nat
  text : String
deriving DecidableEq, Repr

/-- The editor instance as seen by the drag handler: its latest editor
state, the internal-drag origin flag, and the two optional override hooks. -/
structure Editor where
  latestEditorState : EditorState
  internalDrag : Bool
  handleDroppedFiles : Option (SelectionState → List Nat → DraftHandleValue)
  handleDrop : Option (SelectionState → DataTransferM → String → DraftHandleValue)

/-- A host drop event. `caretRangeFromPoint = none` means the host does not
expose `document.caretRangeFromPoint`; `some none` means the host exposes it
but it returns `null` for these coordinates; `some (some (n, off))` is the
returned caret range start. `rangeParent`/`rangeOffset` model the Mozilla
event fields used by the fallback branch. -/
structure DropEvent where
  caretRangeFromPoint : Option (Option (HostNode × Nat))
  rangeParent : Option HostNode
  rangeOffset : Nat
  dataTransfer : DataTransferM

/-- Modelled from the spec: `findAncestorOffsetKey` walks upward from the
node to the nearest ancestor tagged with a logical offset key, returning it,
or null when no ancestor carries one; the module is not included under
`src/`. -/
def findAncestorOffsetKey (n : HostNode) : Option String :=
  n.ancestorOffsetKey

/-- `nullthrows` (fbjs): returns the value or raises on null. -/
def nullthrows {α : Type} : Option α → Except JsErr α
  | some a => Except.ok a
  | none => Except.error JsErr.nullthrown

/-- Modelled from the spec: `getUpdatedSelectionState` constructs a
collapsed selection at the decoded key/offset and fails (returns null) when
the resolved key cannot be mapped back into the content model; the module
is not included under `src/`. The offset key is used as the block key
(identity decoding). -/
def getUpdatedSelectionState (es : EditorState) (anchorKey : String) (anchorOffset : Nat)
    (focusKey : String) (focusOffset : Nat) : Option SelectionState :=
  if anchorKey ∈ es.mappableKeys ∧ focusKey ∈ es.mappableKeys then
    some ⟨anchorKey, anchorOffset, focusKey, focusOffset, false⟩
  else
    none

/-- The tail of `getSelectionForEvent` once a host point (node, offset) was
produced: `nullthrows` on the ancestor offset key (the node and offset
themselves are non-null here, so their own `nullthrows` calls succeed), then
map the key into the content model. -/
def resolveNodeOffset (n : HostNode) (off : Nat) (editorState : EditorState) :
    Except JsErr (Option SelectionState) :=
  match nullthrows (findAncestorOffsetKey n) with
  | Except.error e => Except.error e
  | Except.ok offsetKey =>
    Except.ok (getUpdatedSelectionState editorState offsetKey off offsetKey off)

/-- Source function `getSelectionForEvent`: obtain a host point from
`document.caretRangeFromPoint` when available (reading `startContainer` of a
null caret range raises a `TypeError`), else from `event.rangeParent`, else
return null; then resolve the point. -/
def getSelectionForEvent (event : DropEvent) (editorState : EditorState) :
    Except JsErr (Option SelectionState) :=
  match event.caretRangeFromPoint with
  | some dropRange =>
    match dropRange with
    | none => Except.error JsErr.typeError
    | some (n, off) => resolveNodeOffset n off editorState
  | none =>
    match event.rangeParent with
    | some n => resolveNodeOffset n event.rangeOffset editorState
    | none => Except.ok none

/-- Source function `moveText`: one `DraftModifier.moveText` call pushed
with change type "insert-fragment". -/
def moveText (editorState : EditorState) (targetSelection : SelectionState) : EditorState :=
  EditorState.push editorState
    (DraftModifier.moveText editorState.currentContent editorState.selection targetSelection)
    "insert-fragment"

/-- Source function `insertTextAtSelection`: one `DraftModifier.insertText`
call pushed with change type "insert-fragment". -/
def insertTextAtSelection (editorState : EditorState) (selection : SelectionState)
    (text : String) : EditorState :=
  EditorState.push editorState
    (DraftModifier.insertText editorState.currentContent selection text
      editorState.inlineStyle)
    "insert-fragment"

/-- The mutation the drop handler decides on. `asyncFileInsert` records the
pending asynchronous file-text extraction together with the editor state and
drop selection captured at drop time. -/
inductive DropAction
  | noAction
  | asyncFileInsert (captured : EditorState) (sel : SelectionState) (files : List Nat)
  | update (st : EditorState)
deriving DecidableEq, Repr

/-- Observable effects of one `onDrop` call: whether `e.preventDefault()`
and `editor.exitCurrentMode()` ran, which mutation was decided, and the
exception, when one escaped the handler. -/
structure DropEffects where
  preventedDefault : Bool
  exitedMode : Bool
  action : DropAction
deriving DecidableEq, Repr

/-- The branch structure of `onDrop` after `preventDefault` and
`exitCurrentMode`: null drop selection stops; a file payload consults
`handleDroppedFiles` and otherwise starts the asynchronous extraction
against the captured state; otherwise `handleDrop` is consulted with the
origin tag, an internal drag moves text and an external one inserts the
plain-text payload. -/
def dropActionFor (editor : Editor) (e : DropEvent) (editorState : EditorState)
    (dropSelection : Option SelectionState) : DropAction :=
  match dropSelection with
  | none => DropAction.noAction
  | some sel =>
    let data := e.dataTransfer
    if data.files.length > 0 then
      if (match editor.handleDroppedFiles with
          | some hook => isEventHandled (hook sel data.files)
          | none => false) then
        DropAction.noAction
      else
        DropAction.asyncFileInsert editorState sel data.files
    else
      let dragType := if editor.internalDrag then "internal" else "external"
      if (match editor.handleDrop with
          | some hook => isEventHandled (hook sel data dragType)
          | none => false) then
        DropAction.noAction
      else if editor.internalDrag then
        DropAction.update (moveText editorState sel)
      else
        DropAction.update (insertTextAtSelection editorState sel data.text)

/-- Source function `onDrop`: resolve the drop point (this runs before
`preventDefault`/`exitCurrentMode`, so an exception escaping the resolver
aborts the handler with neither effect performed), then prevent the default
drop behaviour, exit drag mode, and decide the mutation. -/
def onDrop (editor : Editor) (e : DropEvent) : DropEffects × Option JsErr :=
  let editorState := editor.latestEditorState
  match getSelectionForEvent e editorState with
  | Except.error err =>
    ({ preventedDefault := false, exitedMode := false, action := DropAction.noAction }, some err)
  | Except.ok dropSelection =>
    ({ preventedDefault := true, exitedMode := true,
       action := dropActionFor editor e editorState dropSelection }, none)

/-- The callback passed to `getTextContentFromFiles`
(`fileText && editor.update(insertTextAtSelection(editorState, dropSelection,
fileText))`): the empty string is the only falsy file text, and the
insertion is computed from the editor state and drop selection captured at
drop time. -/
def dropFilesCallback (captured : EditorState) (dropSelection : SelectionState)
    (fileText : String) : Option EditorState :=
  if fileText = "" then none
  else some (insertTextAtSelection captured dropSelection fileText)

/-- Source function `onDragEnd`: unconditionally exits the transient drag
mode. -/
def onDragEnd : Bool := true

/-!
Concrete fixtures used by witnesses and counterexamples.
-/

def envAll : Env := ⟨fun _ => true, fun _ => true⟩

def envNoActive : Env := ⟨fun _ => true, fun _ => false⟩

def nA : HostNode := ⟨1, 0, 5, none⟩

def nShort : HostNode := ⟨2, 0, 1, none⟩

def nKeyed : HostNode := ⟨3, 0, 8, some "k"⟩

def nNoKey : HostNode := ⟨4, 0, 8, none⟩

def nLater : HostNode := ⟨5, 9, 6, none⟩

def stFwd : SelectionState := ⟨"b", 1, "b", 3, false⟩

def stBack : SelectionState := ⟨"b", 3, "b", 1, true⟩

def selExt : HostSelection := ⟨true, none⟩

def selExtRange : HostSelection := ⟨true, some ((nA, 0), (nA, 0))⟩

def selNoExtRange : HostSelection := ⟨false, some ((nA, 0), (nA, 0))⟩

def esBase : EditorState := ⟨ContentState.base 0, stFwd, [], ["k"], none, []⟩

def dtPlain : DataTransferM := ⟨[], "abc"⟩

def dtFiles : DataTransferM := ⟨[7], ""⟩

def evNoKey : DropEvent := ⟨some (some (nNoKey, 1)), none, 0, dtPlain⟩

def evNoPoint : DropEvent := ⟨none, none, 0, dtPlain⟩

def evKeyed : DropEvent := ⟨none, some nKeyed, 2, dtPlain⟩

def evKeyedFiles : DropEvent := ⟨none, some nKeyed, 2, dtFiles⟩

def edInternal : Editor := ⟨esBase, true, none, none⟩

def edExternal : Editor := ⟨esBase, false, none, none⟩

def selNoExtEmpty : HostSelection := ⟨false, none⟩

def stMal : SelectionState := ⟨"b", 3, "b", 4, false⟩

def nKeyedBad : HostNode := ⟨6, 0, 8, some "zz"⟩

def evUnmappable : DropEvent := ⟨some (some (nKeyedBad, 1)), none, 0, dtPlain⟩

def selDropK : SelectionState := ⟨"k", 2, "k", 2, false⟩

/-!
Helper lemmas. `selOutView` projects a synchronizer result onto the host
calls issued and the final host selection or exception, forgetting the
diagnostic payloads (which record the logical selection being applied and
therefore differ between a backward selection and its forward-swapped
equivalent).
-/

def selOutView (r : SelOut) : List HostCall × Except JsErr HostSelection :=
  (r.1, r.2.2)

theorem thenSel_view_congr (r1 r2 : SelOut) (f1 f2 : HostSelection → SelOut)
    (h : selOutView r1 = selOutView r2)
    (hf : ∀ s, selOutView (f1 s) = selOutView (f2 s)) :
    selOutView (thenSel r1 f1) = selOutView (thenSel r2 f2) := by
  obtain ⟨t1, l1, e1⟩ := r1
  obtain ⟨t2, l2, e2⟩ := r2
  simp [selOutView] at h
  obtain ⟨ht, he⟩ := h
  subst ht
  subst he
  cases e1 with
  | error e => simp [thenSel, selOutView]
  | ok s =>
    have hs := hf s
    simp [selOutView] at hs
    simp [thenSel, selOutView, hs.1, hs.2]

theorem addPoint_view_congr (s : HostSelection) (n : HostNode) (o : Nat)
    (st1 st2 : SelectionState) :
    selOutView (addPointToSelection s n o st1) = selOutView (addPointToSelection s n o st2) := by
  by_cases h : getNodeLength n < o <;> simp [addPointToSelection, selOutView, h]

theorem addFocus_view_congr (env : Env) (s : HostSelection) (n : HostNode) (o : Nat)
    (st1 st2 : SelectionState) :
    selOutView (addFocusToSelection env s n o st1) =
      selOutView (addFocusToSelection env s n o st2) := by
  by_cases hb : (s.hasExtend && env.activeContains n) = true
  · cases hsel : s.sel with
    | none => simp [addFocusToSelection, selOutView, hb, hsel]
    | some pr =>
      by_cases h : getNodeLength n < o <;>
        simp [addFocusToSelection, selOutView, hb, hsel, h]
  · cases hsel : s.sel with
    | none => simp [addFocusToSelection, selOutView, hb, hsel]
    | some pr =>
      by_cases h : getNodeLength n < o <;>
        simp [addFocusToSelection, selOutView, hb, hsel, h]

theorem setDraft_view_congr (env : Env) (st1 st2 : SelectionState) (node : HostNode)
    (bk : String) (ns ne : Nat) (s : HostSelection)
    (h : normalizeForHost s st1 = normalizeForHost s st2) :
    selOutView (setDraftEditorSelection env st1 node bk ns ne s) =
      selOutView (setDraftEditorSelection env st2 node bk ns ne s) := by
  unfold setDraftEditorSelection
  rw [h]
  by_cases hroot : env.editorRootContains node
  case neg => simp [hroot]
  case pos =>
    simp only [hroot, Bool.not_true, Bool.false_eq_true, if_false]
    by_cases hb : (nodeHasPoint bk ns ne (normalizeForHost s st2).anchorKey
        (normalizeForHost s st2).anchorOffset &&
        nodeHasPoint bk ns ne (normalizeForHost s st2).focusKey
        (normalizeForHost s st2).focusOffset) = true
    · simp only [hb, if_true]
      exact thenSel_view_congr _ _ _ _ rfl fun s1 =>
        thenSel_view_congr _ _ _ _ (addPoint_view_congr _ _ _ _ _) fun s2 =>
          addFocus_view_congr _ _ _ _ _ _
    · simp only [hb, Bool.false_eq_true, if_false]
      by_cases hdir : (!(normalizeForHost s st2).isBackward) = true
      · simp only [hdir, if_true]
        refine thenSel_view_congr _ _ _ _ ?_ fun s2 => ?_
        · by_cases hA : nodeHasPoint bk ns ne (normalizeForHost s st2).anchorKey
              (normalizeForHost s st2).anchorOffset = true
          · simp only [hA, if_true]
            exact thenSel_view_congr _ _ _ _ rfl fun s1 => addPoint_view_congr _ _ _ _ _
          · simp [hA]
        · by_cases hF : nodeHasPoint bk ns ne (normalizeForHost s st2).focusKey
              (normalizeForHost s st2).focusOffset = true
          · simp only [hF, if_true]
            exact addFocus_view_congr _ _ _ _ _ _
          · simp [hF]
      · simp only [hdir, Bool.false_eq_true, if_false]
        refine thenSel_view_congr _ _ _ _ ?_ fun s2 => ?_
        · by_cases hF : nodeHasPoint bk ns ne (normalizeForHost s st2).focusKey
              (normalizeForHost s st2).focusOffset = true
          · simp only [hF, if_true]
            exact thenSel_view_congr _ _ _ _ rfl fun s1 => addPoint_view_congr _ _ _ _ _
          · simp [hF]
        · by_cases hA : nodeHasPoint bk ns ne (normalizeForHost s st2).anchorKey
              (normalizeForHost s st2).anchorOffset = true
          · simp only [hA, if_true]
            rcases hsel : s2.sel with _ | pf0 <;> simp only [hsel]
            · exact thenSel_view_congr _ _ _ _ rfl fun s3 =>
                thenSel_view_congr _ _ _ _ (addPoint_view_congr _ _ _ _ _) fun _s4 => rfl
            · exact thenSel_view_congr _ _ _ _ rfl fun s3 =>
                thenSel_view_congr _ _ _ _ (addPoint_view_congr _ _ _ _ _) fun s4 =>
                  addFocus_view_congr _ _ _ _ _ _
          · simp [hA]

/-!
Claim theorems.
-/

theorem pointLe_refl (p : HostPoint) : pointLe p p = true := by
  simp [pointLe]

theorem rangeAfterSetEnd_forward (a f : HostPoint) (node : HostNode) (off : Nat) :
    pointLe (rangeAfterSetEnd a f node off).1 (rangeAfterSetEnd a f node off).2 = true := by
  unfold rangeAfterSetEnd
  by_cases hle : pointLe (minPoint a f) (node, off) = true
  · simp [hle]
  · simp [hle, pointLe_refl]

/-- C6: applying a backward logical selection on a host whose selection
object lacks the extend capability issues the same host calls and produces
the same final host selection (or host exception) as applying the
forward-swapped equivalent selection (anchor/focus pairs exchanged,
`isBackward = false`): the code performs exactly that swap and then proceeds
as for a forward selection. Only the diagnostic payloads can differ, since
they record the logical selection value verbatim. -/
theorem C6_backward_swap_equiv (env : Env) (st : SelectionState) (node : HostNode)
    (bk : String) (ns ne : Nat) (s : HostSelection)
    (hext : s.hasExtend = false) (hback : st.isBackward = true) :
    selOutView (setDraftEditorSelection env st node bk ns ne s) =
      selOutView (setDraftEditorSelection env (swapSelection st) node bk ns ne s) := by
  apply setDraft_view_congr
  simp [normalizeForHost, swapSelection, hext, hback]

/-- Witness for C6 at a concrete backward selection on a no-extend host. -/
theorem C6_backward_swap_equiv_witness :
    selOutView (setDraftEditorSelection envAll stBack nA "b" 0 5 selNoExtEmpty) =
      selOutView (setDraftEditorSelection envAll (swapSelection stBack) nA "b" 0 5 selNoExtEmpty) :=
  C6_backward_swap_equiv envAll stBack nA "b" 0 5 selNoExtEmpty rfl rfl

/-- C9: when, after the no-extend backward normalization, this node's
`[nodeStart, nodeEnd]` range contains neither the anchor nor the focus of
its block (or the block key matches neither endpoint), applySelection issues
no host selection API call and returns the host selection object unchanged. -/
theorem C9_untouched_when_no_endpoint (env : Env) (st : SelectionState) (node : HostNode)
    (bk : String) (ns ne : Nat) (s : HostSelection)
    (hA : nodeHasPoint bk ns ne (normalizeForHost s st).anchorKey
      (normalizeForHost s st).anchorOffset = false)
    (hF : nodeHasPoint bk ns ne (normalizeForHost s st).focusKey
      (normalizeForHost s st).focusOffset = false) :
    setDraftEditorSelection env st node bk ns ne s = ([], [], Except.ok s) := by
  unfold setDraftEditorSelection
  by_cases hroot : env.editorRootContains node
  · simp [hroot, hA, hF, thenSel]
  · simp [hroot]

/-- Witness for C9: a selection whose block key differs from this node's
block leaves the host selection untouched. -/
theorem C9_untouched_when_no_endpoint_witness :
    setDraftEditorSelection envAll stFwd nLater "z" 0 5 selExtRange =
      ([], [], Except.ok selExtRange) :=
  C9_untouched_when_no_endpoint envAll stFwd nLater "z" 0 5 selExtRange (by decide) (by decide)

/-- C10: in addFocusToSelection the extend path is taken only when the host
selection supports extend AND the target node lies inside the active
element; in every other case — including extend-capable hosts whose focus is
elsewhere — the focus is applied by taking the selection's first range,
setting its end to the target point and re-adding a cloned range, so the
would-throw extend call is never issued and the resulting native selection
is forward (its anchor does not come after its focus). -/
theorem C10_focus_extend_guard (env : Env) (s : HostSelection) (node : HostNode) (off : Nat)
    (st : SelectionState) (a f : HostPoint)
    (hsel : s.sel = some (a, f)) (hoff : ¬ getNodeLength node < off) :
    ((s.hasExtend && env.activeContains node) = true →
      addFocusToSelection env s node off st =
        ([HostCall.extend node off], [], Except.ok { s with sel := some (a, (node, off)) })) ∧
    ((s.hasExtend && env.activeContains node) = false →
      addFocusToSelection env s node off st =
        ([HostCall.getRangeAt 0, HostCall.setEnd node off,
          HostCall.addRange (rangeAfterSetEnd a f node off).1 (rangeAfterSetEnd a f node off).2],
          [], Except.ok { s with sel := some (rangeAfterSetEnd a f node off) }) ∧
      pointLe (rangeAfterSetEnd a f node off).1 (rangeAfterSetEnd a f node off).2 = true) := by
  constructor
  · intro hcond
    simp [addFocusToSelection, hcond, hsel, hoff]
  · intro hcond
    exact ⟨by simp [addFocusToSelection, hcond, hsel, hoff],
      rangeAfterSetEnd_forward a f node off⟩

/-- Witness for C10 on an extend-capable host whose active element does not
contain the target node: the fallback path runs and yields a forward range. -/
theorem C10_focus_extend_guard_witness :
    addFocusToSelection envNoActive selExtRange nA 2 stFwd =
      ([HostCall.getRangeAt 0, HostCall.setEnd nA 2,
        HostCall.addRange (rangeAfterSetEnd (nA, 0) (nA, 0) nA 2).1
          (rangeAfterSetEnd (nA, 0) (nA, 0) nA 2).2],
        [], Except.ok { selExtRange with sel := some (rangeAfterSetEnd (nA, 0) (nA, 0) nA 2) }) ∧
    pointLe (rangeAfterSetEnd (nA, 0) (nA, 0) nA 2).1
      (rangeAfterSetEnd (nA, 0) (nA, 0) nA 2).2 = true :=
  (C10_focus_extend_guard envNoActive selExtRange nA 2 stFwd (nA, 0) (nA, 0) rfl
    (by decide)).2 rfl

/-- C1 counterexample: a concrete applySelection call whose requested anchor
boundary offset (3) exceeds the node content length (1). The diagnostic is
logged, but the operation does not return normally: the IndexSizeError from
`range.setStart` escapes `setDraftEditorSelection`, refuting the claim that
no exception escapes applySelection. -/
theorem C1_counterexample :
    getNodeLength nShort < stMal.anchorOffset - 0 ∧
    (setDraftEditorSelection envAll stMal nShort "b" 0 5 selExt).2.1 =
      [⟨nShort, 3, stMal⟩] ∧
    (setDraftEditorSelection envAll stMal nShort "b" 0 5 selExt).2.2 =
      Except.error JsErr.indexSize := by
  decide

/-- C1 (amended): when a requested boundary offset exceeds the target node's
content length, the operation logs the diagnostic (node snapshot, offending
offset, logical selection) before attempting the host call, but the host
call then faults and the exception escapes: `addPointToSelection`, the
extend path of `addFocusToSelection`, and `setDraftEditorSelection` itself
all propagate the IndexSizeError to the caller (nothing catches it). -/
theorem C1_log_then_fault
    (s1h : HostSelection) (n1 : HostNode) (o1 : Nat) (st1 : SelectionState)
    (h1 : getNodeLength n1 < o1)
    (env2 : Env) (s2h : HostSelection) (n2 : HostNode) (o2 : Nat) (st2 : SelectionState)
    (a2 f2 : HostPoint)
    (h2 : getNodeLength n2 < o2) (hx2 : s2h.hasExtend = true)
    (hac2 : env2.activeContains n2 = true) (hs2 : s2h.sel = some (a2, f2))
    (env3 : Env) (st3 : SelectionState) (n3 : HostNode) (bk3 : String) (ns3 ne3 : Nat)
    (s3h : HostSelection)
    (hroot3 : env3.editorRootContains n3 = true) (hx3 : s3h.hasExtend = true)
    (hA3 : nodeHasPoint bk3 ns3 ne3 st3.anchorKey st3.anchorOffset = true)
    (hF3 : nodeHasPoint bk3 ns3 ne3 st3.focusKey st3.focusOffset = true)
    (h3 : getNodeLength n3 < st3.anchorOffset - ns3) :
    addPointToSelection s1h n1 o1 st1 =
      ([HostCall.setStart n1 o1], [⟨n1, o1, st1⟩], Except.error JsErr.indexSize) ∧
    addFocusToSelection env2 s2h n2 o2 st2 =
      ([HostCall.extend n2 o2], [⟨n2, o2, st2⟩], Except.error JsErr.indexSize) ∧
    setDraftEditorSelection env3 st3 n3 bk3 ns3 ne3 s3h =
      ([HostCall.removeAllRanges, HostCall.setStart n3 (st3.anchorOffset - ns3)],
        [⟨n3, st3.anchorOffset - ns3, st3⟩], Except.error JsErr.indexSize) := by
  refine ⟨by simp [addPointToSelection, h1],
    by simp [addFocusToSelection, hx2, hac2, hs2, h2], ?_⟩
  unfold setDraftEditorSelection
  simp [hroot3, normalizeForHost, hx3, hA3, hF3, thenSel, removeAllRangesOp,
    addPointToSelection, h3]

/-- Witness for the amended C1 at concrete malformed offsets. -/
theorem C1_log_then_fault_witness :
    addPointToSelection selExt nShort 3 stFwd =
      ([HostCall.setStart nShort 3], [⟨nShort, 3, stFwd⟩], Except.error JsErr.indexSize) ∧
    addFocusToSelection envAll selExtRange nShort 3 stFwd =
      ([HostCall.extend nShort 3], [⟨nShort, 3, stFwd⟩], Except.error JsErr.indexSize) ∧
    setDraftEditorSelection envAll stMal nShort "b" 0 5 selExt =
      ([HostCall.removeAllRanges, HostCall.setStart nShort 3],
        [⟨nShort, 3, stMal⟩], Except.error JsErr.indexSize) :=
  C1_log_then_fault selExt nShort 3 stFwd (by decide)
    envAll selExtRange nShort 3 stFwd (nA, 0) (nA, 0) (by decide) rfl rfl rfl
    envAll stMal nShort "b" 0 5 selExt rfl rfl (by decide) (by decide) (by decide)

/-- C7: when this node's range contains both endpoints (block key matches
both and both offsets lie in `[nodeStart, nodeEnd]` inclusive),
applySelection clears the existing host selection, sets the start point at
anchor - nodeStart and then extends to focus - nodeStart, all in this single
call: directly via `selection.extend` on an extend-capable focused host, and
via the getRangeAt/setEnd/addRange fallback otherwise, which installs the
same final range for a forward selection. -/
theorem C7_both_endpoints_single_call (env : Env) (st : SelectionState) (node : HostNode)
    (bk : String) (ns ne : Nat) (s : HostSelection)
    (hroot : env.editorRootContains node = true)
    (hA : nodeHasPoint bk ns ne st.anchorKey st.anchorOffset = true)
    (hF : nodeHasPoint bk ns ne st.focusKey st.focusOffset = true)
    (hlenA : ¬ getNodeLength node < st.anchorOffset - ns)
    (hlenF : ¬ getNodeLength node < st.focusOffset - ns) :
    (s.hasExtend = true → env.activeContains node = true →
      setDraftEditorSelection env st node bk ns ne s =
        ([HostCall.removeAllRanges, HostCall.setStart node (st.anchorOffset - ns),
          HostCall.addRange (node, st.anchorOffset - ns) (node, st.anchorOffset - ns),
          HostCall.extend node (st.focusOffset - ns)], [],
          Except.ok { s with
            sel := some ((node, st.anchorOffset - ns), (node, st.focusOffset - ns)) })) ∧
    (st.isBackward = false → (s.hasExtend && env.activeContains node) = false →
      st.anchorOffset - ns ≤ st.focusOffset - ns →
      setDraftEditorSelection env st node bk ns ne s =
        ([HostCall.removeAllRanges, HostCall.setStart node (st.anchorOffset - ns),
          HostCall.addRange (node, st.anchorOffset - ns) (node, st.anchorOffset - ns),
          HostCall.getRangeAt 0, HostCall.setEnd node (st.focusOffset - ns),
          HostCall.addRange (node, st.anchorOffset - ns) (node, st.focusOffset - ns)], [],
          Except.ok { s with
            sel := some ((node, st.anchorOffset - ns), (node, st.focusOffset - ns)) })) := by
  constructor
  · intro hext hact
    unfold setDraftEditorSelection
    simp [hroot, normalizeForHost, hext, hact, hA, hF, thenSel, removeAllRangesOp,
      addPointToSelection, hlenA, addFocusToSelection, hlenF]
  · intro hfwd hcond horder
    unfold setDraftEditorSelection
    simp [hroot, normalizeForHost, hfwd, hcond, hA, hF, thenSel, removeAllRangesOp,
      addPointToSelection, hlenA, addFocusToSelection, hlenF, rangeAfterSetEnd,
      minPoint, pointLe_refl, pointLe, horder]

/-- Witness for C7 at a concrete forward selection contained in one node, on
an extend-capable focused host. -/
theorem C7_both_endpoints_single_call_witness :
    setDraftEditorSelection envAll stFwd nA "b" 0 5 selExt =
      ([HostCall.removeAllRanges, HostCall.setStart nA 1,
        HostCall.addRange (nA, 1) (nA, 1), HostCall.extend nA 3], [],
        Except.ok { selExt with sel := some ((nA, 1), (nA, 3)) }) :=
  (C7_both_endpoints_single_call envAll stFwd nA "b" 0 5 selExt rfl (by decide) (by decide)
    (by decide) (by decide)).1 rfl rfl

/-- C8: for a backward selection on an extend-capable host, when the visited
node contains the anchor and not the focus, applySelection captures the host
selection's current focus point, clears all ranges, restarts the selection
anchored at anchor - nodeStart in this node, and extends back to the
previously captured focus point, leaving a native selection anchored here
with the captured point as focus. -/
theorem C8_backward_anchor_restore_focus (env : Env) (st : SelectionState) (node : HostNode)
    (bk : String) (ns ne : Nat) (s : HostSelection) (pa pf : HostPoint)
    (hroot : env.editorRootContains node = true)
    (hext : s.hasExtend = true)
    (hback : st.isBackward = true)
    (hA : nodeHasPoint bk ns ne st.anchorKey st.anchorOffset = true)
    (hF : nodeHasPoint bk ns ne st.focusKey st.focusOffset = false)
    (hsel : s.sel = some (pa, pf))
    (hact : env.activeContains pf.1 = true)
    (hlenA : ¬ getNodeLength node < st.anchorOffset - ns)
    (hlenF : ¬ getNodeLength pf.1 < pf.2) :
    setDraftEditorSelection env st node bk ns ne s =
      ([HostCall.removeAllRanges, HostCall.setStart node (st.anchorOffset - ns),
        HostCall.addRange (node, st.anchorOffset - ns) (node, st.anchorOffset - ns),
        HostCall.extend pf.1 pf.2], [],
        Except.ok { s with sel := some ((node, st.anchorOffset - ns), pf) }) := by
  unfold setDraftEditorSelection
  simp [hroot, normalizeForHost, hext, hback, hA, hF, hsel, thenSel, removeAllRangesOp,
    addPointToSelection, hlenA, addFocusToSelection, hact, hlenF]

/-- Witness for C8: a concrete backward selection whose anchor falls in this
node while a range already started at the focus point is on the host
selection. -/
theorem C8_backward_anchor_restore_focus_witness :
    setDraftEditorSelection envAll stBack nA "b" 2 5 selExtRange =
      ([HostCall.removeAllRanges, HostCall.setStart nA 1,
        HostCall.addRange (nA, 1) (nA, 1), HostCall.extend nA 0], [],
        Except.ok { selExtRange with sel := some ((nA, 1), (nA, 0)) }) :=
  C8_backward_anchor_restore_focus envAll stBack nA "b" 2 5 selExtRange (nA, 0) (nA, 0)
    rfl rfl rfl (by decide) (by decide) rfl rfl (by decide) (by decide)

/-- C2 counterexample: a concrete drop event whose point resolution raises
(the resolved node has no ancestor carrying an offset key, so `nullthrows`
fires). The exception escapes `onDrop` before `e.preventDefault()` and
`editor.exitCurrentMode()` run, refuting the claim that every drop event
prevents the default behavior and exits drag mode. -/
theorem C2_counterexample :
    (onDrop edExternal evNoKey).1.preventedDefault = false ∧
    (onDrop edExternal evNoKey).1.exitedMode = false ∧
    (onDrop edExternal evNoKey).2 = some JsErr.nullthrown := by
  refine ⟨rfl, rfl, rfl⟩

/-- C2 (amended): for every drop event whose drop-point resolution returns
(rather than raising), onDrop prevents the host's default drop behavior and
exits drag mode, regardless of whether resolution produced a selection or
null; when resolution raises, the exception escapes before either effect. -/
theorem C2_prevent_and_exit (editor : Editor) (e : DropEvent) (r : Option SelectionState)
    (h : getSelectionForEvent e editor.latestEditorState = Except.ok r) :
    (onDrop editor e).1.preventedDefault = true ∧
    (onDrop editor e).1.exitedMode = true ∧
    (onDrop editor e).2 = none := by
  simp [onDrop, h]

/-- Witness for the amended C2: a drop event with no point source resolves
to null and still prevents default and exits drag mode. -/
theorem C2_prevent_and_exit_witness :
    (onDrop edExternal evNoPoint).1.preventedDefault = true ∧
    (onDrop edExternal evNoPoint).1.exitedMode = true ∧
    (onDrop edExternal evNoPoint).2 = none :=
  C2_prevent_and_exit edExternal evNoPoint none rfl

/-- C3 counterexample: on a node none of whose ancestors carries a logical
offset key, `getSelectionForEvent` raises (via `nullthrows`) instead of
returning null, refuting the claim that every resolution failure returns
null rather than raising. -/
theorem C3_counterexample :
    findAncestorOffsetKey nNoKey = none ∧
    getSelectionForEvent evNoKey esBase = Except.error JsErr.nullthrown := by
  refine ⟨rfl, rfl⟩

/-- C3 (amended): `getSelectionForEvent` returns null (without raising) when
the host offers no point source (no `caretRangeFromPoint` capability and no
`rangeParent`) and when the resolved key cannot be mapped back into the
content model; when no ancestor of the resolved node carries an offset key
it raises via `nullthrows` instead. Whenever it returns null, the drop is
ignored: onDrop performs no mutation. -/
theorem C3_null_return_paths
    (ev1 : DropEvent) (es1 : EditorState)
    (h1a : ev1.caretRangeFromPoint = none) (h1b : ev1.rangeParent = none)
    (ev2 : DropEvent) (es2 : EditorState) (n2 : HostNode) (o2 : Nat) (k2 : String)
    (h2a : ev2.caretRangeFromPoint = some (some (n2, o2)))
    (h2b : findAncestorOffsetKey n2 = some k2) (h2c : k2 ∉ es2.mappableKeys)
    (ed3 : Editor) (ev3 : DropEvent)
    (h3 : getSelectionForEvent ev3 ed3.latestEditorState = Except.ok none) :
    getSelectionForEvent ev1 es1 = Except.ok none ∧
    getSelectionForEvent ev2 es2 = Except.ok none ∧
    ((onDrop ed3 ev3).1.action = DropAction.noAction ∧ (onDrop ed3 ev3).2 = none) := by
  refine ⟨by simp [getSelectionForEvent, h1a, h1b], ?_, by simp [onDrop, h3, dropActionFor]⟩
  simp [getSelectionForEvent, h2a, resolveNodeOffset, h2b, nullthrows,
    getUpdatedSelectionState, h2c]

/-- Witness for the amended C3 at concrete events: no point source, an
unmappable offset key, and a null resolution feeding a no-mutation drop. -/
theorem C3_null_return_paths_witness :
    getSelectionForEvent evNoPoint esBase = Except.ok none ∧
    getSelectionForEvent evUnmappable esBase = Except.ok none ∧
    ((onDrop edExternal evNoPoint).1.action = DropAction.noAction ∧
      (onDrop edExternal evNoPoint).2 = none) :=
  C3_null_return_paths evNoPoint esBase rfl rfl
    evUnmappable esBase nKeyedBad 1 "zz" rfl rfl (by decide)
    edExternal evNoPoint rfl

/-- C4: for a drop with no files and no handleDrop override where the editor
is the drag source, the new editor state is exactly one push of
`DraftModifier.moveText(currentContent, currentSelection, dropSelection)`
with change type "insert-fragment" — a single combined content-mutation
call recorded as a single history step. -/
theorem C4_internal_drop_single_push (editor : Editor) (e : DropEvent) (sel : SelectionState)
    (hres : getSelectionForEvent e editor.latestEditorState = Except.ok (some sel))
    (hfiles : e.dataTransfer.files = [])
    (hhook : editor.handleDrop = none)
    (hint : editor.internalDrag = true) :
    onDrop editor e =
      ({ preventedDefault := true, exitedMode := true,
         action := DropAction.update (EditorState.push editor.latestEditorState
           (DraftModifier.moveText editor.latestEditorState.currentContent
             editor.latestEditorState.selection sel) "insert-fragment") }, none) ∧
    (moveText editor.latestEditorState sel).history =
      editor.latestEditorState.history ++
        [(DraftModifier.moveText editor.latestEditorState.currentContent
            editor.latestEditorState.selection sel, "insert-fragment")] := by
  constructor
  · simp [onDrop, hres, dropActionFor, hfiles, hhook, hint, moveText]
  · simp [moveText, EditorState.push]

/-- Witness for C4 at a concrete internal drop. -/
theorem C4_internal_drop_single_push_witness :
    onDrop edInternal evKeyed =
      ({ preventedDefault := true, exitedMode := true,
         action := DropAction.update (EditorState.push esBase
           (DraftModifier.moveText esBase.currentContent esBase.selection selDropK)
           "insert-fragment") }, none) ∧
    (moveText esBase selDropK).history =
      esBase.history ++
        [(DraftModifier.moveText esBase.currentContent esBase.selection selDropK,
          "insert-fragment")] :=
  C4_internal_drop_single_push edInternal evKeyed selDropK rfl rfl rfl rfl

/-- C5: for a file-bearing drop not handled by a hook, onDrop starts the
asynchronous extraction with the editor state and drop selection captured at
drop time; the callback inserts non-empty extracted text at the drop
selection as one push with change type "insert-fragment" against that
captured state, and performs no update when the extracted text is empty. -/
theorem C5_file_drop_async_insert (editor : Editor) (e : DropEvent) (sel : SelectionState)
    (hres : getSelectionForEvent e editor.latestEditorState = Except.ok (some sel))
    (hfiles : e.dataTransfer.files.length > 0)
    (hhook : editor.handleDroppedFiles = none) :
    onDrop editor e =
      ({ preventedDefault := true, exitedMode := true,
         action := DropAction.asyncFileInsert editor.latestEditorState sel
           e.dataTransfer.files }, none) ∧
    (∀ t : String, t ≠ "" → dropFilesCallback editor.latestEditorState sel t =
      some (EditorState.push editor.latestEditorState
        (DraftModifier.insertText editor.latestEditorState.currentContent sel t
          editor.latestEditorState.inlineStyle) "insert-fragment")) ∧
    dropFilesCallback editor.latestEditorState sel "" = none := by
  refine ⟨by simp [onDrop, hres, dropActionFor, hfiles, hhook], fun t ht => ?_,
    by simp [dropFilesCallback]⟩
  simp [dropFilesCallback, ht, insertTextAtSelection]

/-- Witness for C5 at a concrete file drop, evaluating the callback on the
extracted text "hello" and on empty text. -/
theorem C5_file_drop_async_insert_witness :
    onDrop edExternal evKeyedFiles =
      ({ preventedDefault := true, exitedMode := true,
         action := DropAction.asyncFileInsert esBase selDropK [7] }, none) ∧
    dropFilesCallback esBase selDropK "hello" =
      some (EditorState.push esBase
        (DraftModifier.insertText esBase.currentContent selDropK "hello" esBase.inlineStyle)
        "insert-fragment") ∧
    dropFilesCallback esBase selDropK "" = none :=
  ⟨(C5_file_drop_async_insert edExternal evKeyedFiles selDropK rfl (by decide) rfl).1,
    (C5_file_drop_async_insert edExternal evKeyedFiles selDropK rfl (by decide) rfl).2.1
      "hello" (by decide),
    (C5_file_drop_async_insert edExternal evKeyedFiles selDropK rfl (by decide) rfl).2.2⟩
